import Mathlib

/-!
Shallow embedding of the node core of the model-csi-driver repository,
translated from the Go sources, together with theorems settling the
specification claims about it.

The embedding keeps the source structure and names where Lean allows it:

* `ModelCsi.Utils`    — pkg/utils retry helper (`WithRetry`, break-retry sentinel)
* `ModelCsi.Mounter`  — pkg/mounter/builder.go tmpfs size option
* `ModelCsi.Metrics`  — pkg/metrics size-label bucketing
* `ModelCsi.Service`  — pkg/service quota checker and model artifact sizing
* `ModelCsi.Status`   — pkg/status JSON status store (marshal / unmarshal / set / get)
* `ModelCsi.Worker`   — pkg/service/kube.go pull worker (sequential semantics)
* `ModelCsi.Node`     — pkg/service/node.go publish dispatcher
* `ModelCsi.SF`       — the singleflight rendezvous used by the worker

Machine integers are modelled as `Nat`/`Int`; filesystem and registry effects
are modelled as explicit state or as oracle inputs recording what the
environment answered.
-/

namespace ModelCsi

namespace Utils

/-- A non-nil Go error as observed by `WithRetry`: either an error matched by
`errors.Is(err, ErrBreakRetry)` (the distinguished sentinel from
src/unnamed/part_000:11), or any other error carrying its message. -/
inductive RetryErr where
  | breakRetry
  | other (msg : String)
deriving DecidableEq

/-- The smallest `int64` value, `-2^63`. -/
def int64Min : Int := -9223372036854775808

/-- The largest `int64` value, `2^63 - 1`. -/
def int64Max : Int := 9223372036854775807

/-- The wrapping decrement `total--` of an `int64` counter
(src/unnamed/part_000:15): the two's-complement subtraction wraps `int64Min`
around to `int64Max`; at every other int64 value it is `total - 1`.
(Arguments outside the int64 range cannot occur in the program; the
extension is `total - 1`.) -/
def int64Dec (total : Int) : Int :=
  if total = int64Min then int64Max else total - 1

theorem int64Dec_as_wrap (total : Int) (h1 : int64Min ≤ total) (h2 : total ≤ int64Max) :
    int64Dec total =
      (total - 1 + 9223372036854775808) % 18446744073709551616 - 9223372036854775808 := by
  simp only [int64Min, int64Max] at h1 h2
  simp only [int64Dec, int64Min, int64Max]
  split <;> omega

/-- Loop of `WithRetry` (src/unnamed/part_000:13-29).  The Go loop keeps an
`int` (int64) counter `total` which is decremented at the top of every
iteration — the first decrement may wrap (`int64Dec`); afterwards the loop
continues only while the decremented counter is positive, so every later
decrement acts on a value in `[1, int64Max]` and cannot wrap.  `rem` is the
`.toNat` of the counter value after the current iteration's decrement, i.e.
how many further iterations the counter still allows; `attempt` counts the
invocations of `handle` already made, so `handle attempt` is the value
returned by the current invocation (`none` is a nil error).  The sleep
between attempts and the log line carry no state and are dropped. -/
def withRetryLoop (handle : Nat → Option RetryErr) : Nat → Nat → Nat × Option RetryErr
  | attempt, rem =>
    match handle attempt with
    | none => (attempt + 1, none)
    | some e =>
      if e = .breakRetry then (attempt + 1, some e)
      else
        match rem with
        | 0 => (attempt + 1, some e)
        | r + 1 => withRetryLoop handle (attempt + 1) r

/-- Function `WithRetry(ctx, handle, total, delay)` from src/unnamed/part_000:13-29,
returning the number of invocations of `handle` made together with the final
value returned to the caller.  The loop budget is the counter after the
first (possibly wrapping) decrement: `(int64Dec total).toNat`. -/
def WithRetry (handle : Nat → Option RetryErr) (total : Int) : Nat × Option RetryErr :=
  withRetryLoop handle 0 (int64Dec total).toNat

theorem withRetryLoop_spec (handle : Nat → Option RetryErr) :
    ∀ rem attempt,
      attempt < (withRetryLoop handle attempt rem).1 ∧
      (withRetryLoop handle attempt rem).1 ≤ attempt + rem + 1 ∧
      (withRetryLoop handle attempt rem).2 = handle ((withRetryLoop handle attempt rem).1 - 1) := by
  intro rem
  induction rem with
  | zero =>
    intro attempt
    rw [withRetryLoop]
    cases h : handle attempt with
    | none => simp [h]
    | some e =>
      by_cases he : e = .breakRetry <;> simp [h, he]
  | succ r ih =>
    intro attempt
    rw [withRetryLoop]
    cases h : handle attempt with
    | none => simp [h]
    | some e =>
      by_cases he : e = .breakRetry
      · simp [h, he]
      · simp only [he, if_false]
        rcases ih (attempt + 1) with ⟨h1, h2, h3⟩
        exact ⟨by omega, by omega, h3⟩

/-- C9 (amended): for every function `fn` and every int64 count `n` other
than the minimum (`int64Min < n ≤ int64Max`, including `n ≤ 0`) and every
delay, `WithRetry` always invokes `fn` at least once, at most `max n 1`
times, terminates (it is a total function), and returns the value of the
final invocation — `none` (nil) exactly when that invocation succeeded.
(At `n = int64Min` the decrement wraps: see the counterexample theorem.) -/
theorem WithRetry_invocations (handle : Nat → Option RetryErr) (total : Int)
    (hlo : int64Min < total) (hhi : total ≤ int64Max) :
    1 ≤ (WithRetry handle total).1 ∧
    ((WithRetry handle total).1 : Int) ≤ max total 1 ∧
    (WithRetry handle total).2 = handle ((WithRetry handle total).1 - 1) := by
  rcases withRetryLoop_spec handle (int64Dec total).toNat 0 with ⟨h1, h2, h3⟩
  refine ⟨h1, ?_, h3⟩
  unfold WithRetry
  have hdec : int64Dec total = total - 1 := by
    simp only [int64Dec]
    exact if_neg (ne_of_gt hlo)
  rw [hdec] at h2 ⊢
  omega

/-- A handle whose every invocation fails with an ordinary error. -/
def alwaysFailHandle : Nat → Option RetryErr :=
  fun _ => some (.other "pull model failed")

theorem withRetryLoop_neverStops (handle : Nat → Option RetryErr) (e0 : String)
    (hfail : ∀ j, handle j = some (.other e0)) :
    ∀ rem attempt,
      withRetryLoop handle attempt rem = (attempt + rem + 1, some (.other e0)) := by
  intro rem
  induction rem with
  | zero =>
    intro attempt
    rw [withRetryLoop, hfail attempt]
    simp
  | succ r ih =>
    intro attempt
    rw [withRetryLoop, hfail attempt]
    have he : ¬ (RetryErr.other e0 = RetryErr.breakRetry) := by simp
    simp only [he, if_false]
    rw [ih (attempt + 1)]
    congr 1
    omega

/-- C9 counterexample: at `n = int64Min = -2^63` — an input the claim
explicitly covers — the first `total--` wraps the counter to `2^63 - 1`, so
a persistently failing `fn` is invoked `2^63` times, violating the claimed
bound `max(n, 1) = 1`. -/
theorem WithRetry_invocations_counterexample :
    (WithRetry alwaysFailHandle (-9223372036854775808)).1 = 9223372036854775808 ∧
    ¬ (((WithRetry alwaysFailHandle (-9223372036854775808)).1 : Int) ≤
        max (-9223372036854775808 : Int) 1) := by
  have hdec : (int64Dec (-9223372036854775808)).toNat = 9223372036854775807 := by
    decide
  have h := withRetryLoop_neverStops alwaysFailHandle "pull model failed"
    (fun _ => rfl) ((int64Dec (-9223372036854775808)).toNat) 0
  have hw : WithRetry alwaysFailHandle (-9223372036854775808) =
      (9223372036854775808, some (.other "pull model failed")) := by
    unfold WithRetry
    rw [h, hdec]
  rw [hw]
  constructor
  · rfl
  · decide

/-- Witness for `WithRetry_invocations`: three attempts of a persistently
failing handle stay within the bound and return its error. -/
theorem WithRetry_invocations_witness :
    1 ≤ (WithRetry alwaysFailHandle 3).1 ∧
    ((WithRetry alwaysFailHandle 3).1 : Int) ≤ max 3 1 ∧
    (WithRetry alwaysFailHandle 3).2 =
      alwaysFailHandle ((WithRetry alwaysFailHandle 3).1 - 1) :=
  WithRetry_invocations alwaysFailHandle 3 (by decide) (by decide)

/-- C5 counterexample: a function that immediately returns the break-retry
sentinel makes `WithRetry` stop after one invocation, but the value
propagated to the caller is the sentinel error itself — not a nil /
non-error result as the claim states. -/
theorem WithRetry_breakRetry_counterexample :
    (WithRetry (fun _ => some .breakRetry) 5).1 = 1 ∧
    (WithRetry (fun _ => some .breakRetry) 5).2 = some .breakRetry ∧
    (WithRetry (fun _ => some .breakRetry) 5).2 ≠ none := by
  decide

theorem withRetryLoop_breakRetry (handle : Nat → Option RetryErr) :
    ∀ k rem attempt, k ≤ rem →
      (∀ j, j < k → handle (attempt + j) ≠ none ∧ handle (attempt + j) ≠ some .breakRetry) →
      handle (attempt + k) = some .breakRetry →
      withRetryLoop handle attempt rem = (attempt + k + 1, some .breakRetry) := by
  intro k
  induction k with
  | zero =>
    intro rem attempt _ _ hk
    simp only [Nat.add_zero] at hk
    rw [withRetryLoop, hk]
    simp
  | succ m ih =>
    intro rem attempt hle hprior hk
    obtain ⟨r, rtl⟩ : ∃ r, rem = r + 1 := ⟨rem - 1, by omega⟩
    subst rtl
    rcases hprior 0 (Nat.succ_pos m) with ⟨hne, hnb⟩
    simp only [Nat.add_zero] at hne hnb
    rw [withRetryLoop]
    cases h : handle attempt with
    | none => exact absurd h hne
    | some e =>
      have he : e ≠ .breakRetry := by
        intro hcontra
        exact hnb (by rw [h, hcontra])
      simp only [he, if_false]
      have hrec := ih r (attempt + 1) (by omega)
        (fun j hj => by
          have := hprior (j + 1) (by omega)
          simpa [Nat.add_assoc, Nat.add_comm 1 j] using this)
        (by
          have harith : attempt + 1 + m = attempt + (m + 1) := by omega
          rw [harith]; exact hk)
      rw [hrec]
      congr 1
      omega

/-- C5 (amended): if the loop reaches an invocation that returns the
break-retry sentinel (all earlier invocations returned ordinary errors and the
attempt budget is not yet exhausted), `WithRetry` terminates right there —
and returns the sentinel error itself (a non-nil error the caller detects via
`errors.Is`), not success. -/
theorem WithRetry_breakRetry (handle : Nat → Option RetryErr) (total : Int) (k : Nat)
    (hbudget : (k : Int) + 1 ≤ max total 1)
    (hprior : ∀ j, j < k → handle j ≠ none ∧ handle j ≠ some .breakRetry)
    (hk : handle k = some .breakRetry) :
    WithRetry handle total = (k + 1, some .breakRetry) := by
  unfold WithRetry
  have hle : k ≤ (int64Dec total).toNat := by
    by_cases hmin : total = int64Min
    · subst hmin
      simp only [int64Min] at hbudget
      have hk0 : k = 0 := by omega
      subst hk0
      exact Nat.zero_le _
    · have hdec : int64Dec total = total - 1 := by
        simp only [int64Dec]
        exact if_neg hmin
      rw [hdec]
      omega
  simpa using withRetryLoop_breakRetry handle k (int64Dec total).toNat 0 hle
    (fun j hj => by simpa using hprior j hj) (by simpa using hk)

def breakAtTwo : Nat → Option RetryErr :=
  fun j => if j < 2 then some (.other "transient") else some .breakRetry

/-- Witness for `WithRetry_breakRetry` at a concrete input: two transient
failures followed by the sentinel stop the loop after the third invocation
with the sentinel as the returned value. -/
theorem WithRetry_breakRetry_witness :
    WithRetry breakAtTwo 5 = (3, some .breakRetry) :=
  WithRetry_breakRetry breakAtTwo 5 2 (by decide)
    (fun j hj => by constructor <;> simp [breakAtTwo, hj])
    (by decide)

end Utils

namespace Mounter

/-- Mathematical value of a decimal digit string. -/
def digitsVal (cs : List Char) : Nat :=
  cs.foldl (fun acc c => acc * 10 + (c.toNat - '0'.toNat)) 0

/-- Base-10 parse underlying Go's `strconv.ParseUint(s, 10, 64)`: defined —
with the numeral's mathematical value — exactly on the nonempty all-digit
strings, the strings `ParseUint` accepts syntactically for base 10. -/
def goParseDec (s : String) : Option Nat :=
  if s.data ≠ [] ∧ s.data.all Char.isDigit then some (digitsVal s.data) else none

/-- Value result of `strconv.ParseUint(s, 10, 64)` with the error discarded,
as in src/pkg/mounter/builder.go:75: a syntax error yields `0`; a decimal
numeral overflowing `uint64` is cut off at `2^64 - 1` (`ErrRange`
discarded); otherwise the numeral's value. -/
def goParseUint64 (s : String) : Nat :=
  match goParseDec s with
  | some v => min v (2 ^ 64 - 1)
  | none => 0

/-- Method `(*MountBuilder).Size(sizeInBytes)` from src/pkg/mounter/builder.go:74-80:
parse the size (error discarded), clamp it via `math.Min(2<<30, float64(size))`
— both operands of the `float64` min are exact at every decision boundary, so
the clamp is `min size (2^31)` — and append `-o`, `size=<n>`, `tmpfs`
to the argument list.  The method is total: it never fails. -/
def Size (args : List String) (sizeInBytes : String) : List String :=
  let size := min (goParseUint64 sizeInBytes) (2 ^ 31)
  args ++ ["-o", "size=" ++ toString size, "tmpfs"]

/-- C10: `Size` never fails; a string that does not parse as an unsigned
decimal numeral emits `size=0`, and a numeral of value `v` emits
`size=min v 2147483648` (the 2 GiB clamp); both hold for every argument
list. -/
theorem Size_spec (args : List String) (s : String) :
    (goParseDec s = none → Size args s = args ++ ["-o", "size=0", "tmpfs"]) ∧
    (∀ v, goParseDec s = some v →
      Size args s = args ++ ["-o", "size=" ++ toString (min v 2147483648), "tmpfs"]) := by
  constructor
  · intro h
    simp only [Size, goParseUint64, h]
    rfl
  · intro v h
    have hmin : min (min v (2 ^ 64 - 1)) (2 ^ 31) = min v 2147483648 := by
      rw [Nat.min_assoc]
      norm_num
    simp only [Size, goParseUint64, h, hmin]

/-- Witness for `Size_spec`: a non-numeral emits `size=0`; `5000000000`
(greater than 2 GiB) is clamped to `size=2147483648`. -/
theorem Size_spec_witness :
    Size ["-t", "tmpfs"] "notanumber" = ["-t", "tmpfs", "-o", "size=0", "tmpfs"] ∧
    Size [] "5000000000" = ["-o", "size=2147483648", "tmpfs"] := by
  constructor
  · exact (Size_spec ["-t", "tmpfs"] "notanumber").1 (by decide)
  · have h := (Size_spec [] "5000000000").2 5000000000 (by decide)
    simpa using h

end Mounter

namespace Metrics

/-- Value of `humanize.IBytes` at a power of two `2^k` with `k ≥ 4` (so the small-value
branch of humanize is not taken): the unit index is `e = k / 10`, the shown
value is `2^(k % 10)`, printed with one decimal (always `.0`) when it is
below 10 and as an integer otherwise.  The `float64` logarithm and division
inside humanize are exact at these inputs. -/
def ibytesPow2 (k : Nat) : String :=
  let e := k / 10
  let v := 2 ^ (k % 10)
  let unit := ["B", "KiB", "MiB", "GiB", "TiB", "PiB", "EiB"].getD e "?"
  if v < 10 then toString v ++ ".0 " ++ unit else toString v ++ " " ++ unit

/-- Function `getSizeLabel` from src/pkg/metrics/mount_collector.go:86-96 (the label
string stored under the `size_in_mb` key).  `SizeInMBBuckets` is
`ExponentialBuckets(1, 2, 24)`, i.e. `2^i` MiB for `i < 24`;
`sort.SearchFloat64s` returns the least index whose bucket is `≥`
`sizeInBytes / 2^20`; every `float64` comparison at these boundaries is exact
(all boundary products are below `2^53`), so the search is modelled on `ℤ`.
An index past the last bucket yields `"+Inf"`. -/
def getSizeLabel (sizeInBytes : Int) : String :=
  match (List.range 24).find? (fun i => decide (sizeInBytes ≤ 2 ^ (i + 20))) with
  | some i => ibytesPow2 (i + 20)
  | none => "+Inf"

/-- C8: the metric size-label bucketing satisfies exactly the specified
values: `0`, `1023`, `1024` and `1 MiB` map to `"1.0 MiB"`; `1 MiB + 1` maps
to `"2.0 MiB"`; `8 TiB` maps to `"8.0 TiB"`; `8 TiB + 1` maps to `"+Inf"`. -/
theorem getSizeLabel_buckets :
    getSizeLabel 0 = "1.0 MiB" ∧
    getSizeLabel 1023 = "1.0 MiB" ∧
    getSizeLabel 1024 = "1.0 MiB" ∧
    getSizeLabel 1048576 = "1.0 MiB" ∧
    getSizeLabel 1048577 = "2.0 MiB" ∧
    getSizeLabel 8796093022208 = "8.0 TiB" ∧
    getSizeLabel 8796093022209 = "+Inf" := by
  decide

end Metrics

namespace Service

/-- Media type of an inspected artifact layer.  The eight named constructors
are the model-spec weight media types tested by `isWeightLayer`
(src/unnamed/part_011:212-229): the four current
`modelspec.MediaTypeModelWeight*` constants and the four deprecated
`legacymodelspec.MediaTypeModelWeight*` constants; `other` covers every
remaining media type string. -/
inductive MediaType where
  | modelWeightRaw
  | modelWeight
  | modelWeightGzip
  | modelWeightZstd
  | legacyModelWeightRaw
  | legacyModelWeight
  | legacyModelWeightGzip
  | legacyModelWeightZstd
  | other (s : String)
deriving DecidableEq

/-- One `backend.InspectedModelArtifactLayer`: media type, digest, size and
filepath annotation. -/
structure Layer where
  mediaType : MediaType
  digest : String
  size : Int
  filepath : String
deriving DecidableEq

/-- The safetensors index sidecar filename (the constant referenced at
src/unnamed/part_011:209; its value appears literally in
src/pkg/service/model.go:33). -/
def safetensorIndexFilePath : String := "model.safetensors.index.json"

/-- Function `isSafetensorIndexFile` from src/unnamed/part_011:208-210. -/
def isSafetensorIndexFile (layer : Layer) : Bool :=
  layer.filepath == safetensorIndexFilePath

/-- Function `isWeightLayer` from src/unnamed/part_011:212-229: the current weight
media types, then the legacy weight media types, then the safetensors index
file. -/
def isWeightLayer (layer : Layer) : Bool :=
  if layer.mediaType = .modelWeightRaw ∨ layer.mediaType = .modelWeight ∨
      layer.mediaType = .modelWeightGzip ∨ layer.mediaType = .modelWeightZstd then
    true
  else if layer.mediaType = .legacyModelWeightRaw ∨ layer.mediaType = .legacyModelWeight ∨
      layer.mediaType = .legacyModelWeightGzip ∨ layer.mediaType = .legacyModelWeightZstd then
    true
  else if isSafetensorIndexFile layer then
    true
  else
    false

/-- Method `(*ModelArtifact).getLayers` from src/unnamed/part_011:275-299 (the
filtering loop; the inspect call that produced `artifactLayers` is the
oracle input): when excluding weights, a layer with an empty filepath is
skipped, and weight layers are omitted; otherwise every layer is kept, in
order. -/
def getLayers : List Layer → Bool → List Layer
  | [], _ => []
  | layer :: rest, excludeWeights =>
    if excludeWeights then
      if layer.filepath == "" then getLayers rest excludeWeights
      else if !isWeightLayer layer then layer :: getLayers rest excludeWeights
      else getLayers rest excludeWeights
    else layer :: getLayers rest excludeWeights

/-- Method `(*ModelArtifact).GetSize` from src/unnamed/part_011:301-319 (the same
loop as src/pkg/service/model.go:112-130): sum the sizes of the selected
layers, skipping a layer whose digest was already counted (`digestMap`). -/
def GetSize (artifactLayers : List Layer) (excludeWeights : Bool) : Int :=
  let layers := getLayers artifactLayers excludeWeights
  (layers.foldl
    (fun acc layer =>
      if layer.digest ∈ acc.2 then acc
      else (acc.1 + layer.size, layer.digest :: acc.2))
    ((0 : Int), ([] : List String))).1

/-- Specification-side list of layers deduplicated by digest, keeping the
first layer carrying each digest. -/
def dedupByDigest : List Layer → List Layer
  | [] => []
  | l :: rest => l :: dedupByDigest (rest.filter (fun x => decide (x.digest ≠ l.digest)))
termination_by ls => ls.length
decreasing_by
  simp only [List.length_cons]
  exact Nat.lt_succ_of_le (List.length_filter_le _ _)

/-- Specification-side reading of "the model-spec weight media types". -/
def isWeightMediaType : MediaType → Bool
  | .modelWeightRaw | .modelWeight | .modelWeightGzip | .modelWeightZstd => true
  | .legacyModelWeightRaw | .legacyModelWeight
  | .legacyModelWeightGzip | .legacyModelWeightZstd => true
  | .other _ => false

theorem getLayers_false (ls : List Layer) : getLayers ls false = ls := by
  induction ls with
  | nil => rfl
  | cons l rest ih => simp [getLayers, ih]

theorem getLayers_true (ls : List Layer) :
    getLayers ls true = ls.filter (fun l => !(l.filepath == "") && !isWeightLayer l) := by
  induction ls with
  | nil => rfl
  | cons l rest ih =>
    cases h1 : l.filepath == "" <;> cases h2 : isWeightLayer l <;>
      simp [getLayers, List.filter, h1, h2, ih]

theorem filter_digest_notMem (rest : List Layer) (d : String) (seen : List String) :
    (rest.filter (fun l => decide (l.digest ∉ seen))).filter (fun x => decide (x.digest ≠ d)) =
      rest.filter (fun l => decide (l.digest ∉ d :: seen)) := by
  rw [List.filter_filter]
  apply List.filter_congr
  intro x _
  simp only [decide_eq_true_eq, Bool.and_eq_true, decide_not, Bool.not_eq_true]
  by_cases hx1 : x.digest = d <;> by_cases hx2 : x.digest ∈ seen <;>
    simp [hx1, hx2, List.mem_cons]

theorem getSizeLoop_spec (ls : List Layer) :
    ∀ (acc : Int) (seen : List String),
      (ls.foldl
        (fun acc layer =>
          if layer.digest ∈ acc.2 then acc
          else (acc.1 + layer.size, layer.digest :: acc.2)) (acc, seen)).1 =
      acc + ((dedupByDigest (ls.filter (fun l => decide (l.digest ∉ seen)))).map Layer.size).sum := by
  induction ls with
  | nil => intro acc seen; simp [dedupByDigest]
  | cons l rest ih =>
    intro acc seen
    by_cases hmem : l.digest ∈ seen
    · rw [List.foldl_cons]
      simp only [hmem, if_pos]
      rw [ih acc seen]
      congr 2
      simp [List.filter, hmem]
    · rw [List.foldl_cons]
      simp only [hmem, if_neg, not_false_eq_true]
      rw [ih (acc + l.size) (l.digest :: seen)]
      have hfil : (l :: rest).filter (fun x => decide (x.digest ∉ seen)) =
          l :: rest.filter (fun x => decide (x.digest ∉ seen)) := by
        simp [List.filter, hmem]
      rw [hfil, dedupByDigest, filter_digest_notMem]
      simp only [List.map_cons, List.sum_cons]
      ring

/-- C4: for every inspected artifact, `GetSize` is the sum of layer sizes
deduplicated by layer digest (first occurrence counted); with
`exclude_weights` set it is the same deduplicated sum over the layers that
are kept: exactly the non-weight layers with a nonempty filepath.  A weight
layer is precisely one whose media type is a model-spec weight media type or
whose filepath is the safetensors index filename. -/
theorem GetSize_spec (artifactLayers : List Layer) :
    GetSize artifactLayers false = ((dedupByDigest artifactLayers).map Layer.size).sum ∧
    GetSize artifactLayers true =
      ((dedupByDigest (artifactLayers.filter
        (fun l => !(l.filepath == "") && !isWeightLayer l))).map Layer.size).sum ∧
    ∀ l : Layer, isWeightLayer l = true ↔
      (isWeightMediaType l.mediaType = true ∨ l.filepath = safetensorIndexFilePath) := by
  refine ⟨?_, ?_, ?_⟩
  · rw [GetSize, getLayers_false, getSizeLoop_spec]
    simp
  · rw [GetSize, getLayers_true, getSizeLoop_spec]
    simp
  · intro l
    cases l with
    | mk mt dg sz fp =>
      cases mt <;>
        simp [isWeightLayer, isWeightMediaType, isSafetensorIndexFile, beq_iff_eq]

/-- Kind of a directory entry seen by the `filepath.Walk` in `getUsedSize`. -/
inductive FileKind where
  | regular
  | directory
  | symlink
  | other
deriving DecidableEq

/-- One entry of the walked tree: inode number, `st_blocks` (512-byte
blocks) and kind. -/
structure FsEntry where
  ino : Nat
  blocks : Nat
  kind : FileKind
deriving DecidableEq

/-- Walk loop of `getUsedSize` from src/pkg/service/quota.go:21-47: regular
files and directories contribute `st_blocks * 512` once per inode (`inodes`
is the seen-inode set), symlinks contribute their block count every time,
anything else is ignored.  `entries` is the walk order; the walk is assumed
error-free. -/
def getUsedSizeLoop : List FsEntry → Int → List Nat → Int
  | [], total, _ => total
  | e :: rest, total, inodes =>
    if e.kind = .regular ∨ e.kind = .directory then
      if e.ino ∈ inodes then getUsedSizeLoop rest total inodes
      else getUsedSizeLoop rest (total + (e.blocks : Int) * 512) (e.ino :: inodes)
    else if e.kind = .symlink then
      getUsedSizeLoop rest (total + (e.blocks : Int) * 512) inodes
    else
      getUsedSizeLoop rest total inodes

/-- Function `getUsedSize` from src/pkg/service/quota.go:21-47. -/
def getUsedSize (entries : List FsEntry) : Int :=
  getUsedSizeLoop entries 0 []

/-- Specification-side list of entries deduplicated by inode, keeping the
first entry carrying each inode. -/
def dedupByIno : List FsEntry → List FsEntry
  | [] => []
  | e :: rest => e :: dedupByIno (rest.filter (fun x => decide (x.ino ≠ e.ino)))
termination_by ls => ls.length
decreasing_by
  simp only [List.length_cons]
  exact Nat.lt_succ_of_le (List.length_filter_le _ _)

/-- Specification-side used size: block counts times 512 over regular files
and directories deduplicated by inode, plus block counts times 512 over
symlinks; other entry kinds ignored. -/
def usedSpec (entries : List FsEntry) : Int :=
  ((dedupByIno (entries.filter
      (fun e => decide (e.kind = .regular ∨ e.kind = .directory)))).map
    (fun e => (e.blocks : Int) * 512)).sum +
  ((entries.filter (fun e => decide (e.kind = .symlink))).map
    (fun e => (e.blocks : Int) * 512)).sum

theorem filter_ino_notMem (rest : List FsEntry) (p : FsEntry → Bool) (i : Nat) (seen : List Nat) :
    ((rest.filter p).filter (fun l => decide (l.ino ∉ seen))).filter
        (fun x => decide (x.ino ≠ i)) =
      (rest.filter p).filter (fun l => decide (l.ino ∉ i :: seen)) := by
  rw [List.filter_filter]
  apply List.filter_congr
  intro x _
  simp only [decide_eq_true_eq, Bool.and_eq_true, decide_not, Bool.not_eq_true]
  by_cases hx1 : x.ino = i <;> by_cases hx2 : x.ino ∈ seen <;>
    simp [hx1, hx2, List.mem_cons]

theorem getUsedSizeLoop_spec (entries : List FsEntry) :
    ∀ (total : Int) (inodes : List Nat),
      getUsedSizeLoop entries total inodes =
        total +
        ((dedupByIno ((entries.filter
            (fun e => decide (e.kind = .regular ∨ e.kind = .directory))).filter
              (fun e => decide (e.ino ∉ inodes)))).map
          (fun e => (e.blocks : Int) * 512)).sum +
        ((entries.filter (fun e => decide (e.kind = .symlink))).map
          (fun e => (e.blocks : Int) * 512)).sum := by
  induction entries with
  | nil => intro total inodes; simp [getUsedSizeLoop, dedupByIno]
  | cons e rest ih =>
    intro total inodes
    by_cases hrd : e.kind = .regular ∨ e.kind = .directory
    · have hsym : ¬ e.kind = .symlink := by
        rcases hrd with h | h <;> simp [h]
      by_cases hmem : e.ino ∈ inodes
      · rw [getUsedSizeLoop]
        simp only [hrd, if_pos, hmem, if_pos]
        rw [ih total inodes]
        have hfil : (e :: rest).filter
            (fun x => decide (x.kind = .regular ∨ x.kind = .directory)) =
            e :: rest.filter (fun x => decide (x.kind = .regular ∨ x.kind = .directory)) := by
          simp [List.filter, hrd]
        rw [hfil]
        have hfil2 : (e :: rest.filter
              (fun x => decide (x.kind = .regular ∨ x.kind = .directory))).filter
              (fun x => decide (x.ino ∉ inodes)) =
            (rest.filter (fun x => decide (x.kind = .regular ∨ x.kind = .directory))).filter
              (fun x => decide (x.ino ∉ inodes)) := by
          simp [List.filter, hmem]
        rw [hfil2]
        have hfil3 : (e :: rest).filter (fun x => decide (x.kind = .symlink)) =
            rest.filter (fun x => decide (x.kind = .symlink)) := by
          simp [List.filter, hsym]
        rw [hfil3]
      · rw [getUsedSizeLoop]
        simp only [hrd, if_pos, hmem, if_neg, not_false_eq_true]
        rw [ih (total + (e.blocks : Int) * 512) (e.ino :: inodes)]
        have hfil : (e :: rest).filter
            (fun x => decide (x.kind = .regular ∨ x.kind = .directory)) =
            e :: rest.filter (fun x => decide (x.kind = .regular ∨ x.kind = .directory)) := by
          simp [List.filter, hrd]
        rw [hfil]
        have hfil2 : (e :: rest.filter
              (fun x => decide (x.kind = .regular ∨ x.kind = .directory))).filter
              (fun x => decide (x.ino ∉ inodes)) =
            e :: (rest.filter (fun x => decide (x.kind = .regular ∨ x.kind = .directory))).filter
              (fun x => decide (x.ino ∉ inodes)) := by
          simp [List.filter, hmem]
        rw [hfil2, dedupByIno, filter_ino_notMem]
        have hfil3 : (e :: rest).filter (fun x => decide (x.kind = .symlink)) =
            rest.filter (fun x => decide (x.kind = .symlink)) := by
          simp [List.filter, hsym]
        rw [hfil3]
        simp only [List.map_cons, List.sum_cons]
        ring
    · by_cases hsym : e.kind = .symlink
      · rw [getUsedSizeLoop, if_neg hrd, if_pos hsym]
        rw [ih (total + (e.blocks : Int) * 512) inodes]
        have hfil : (e :: rest).filter
            (fun x => decide (x.kind = .regular ∨ x.kind = .directory)) =
            rest.filter (fun x => decide (x.kind = .regular ∨ x.kind = .directory)) := by
          simp [List.filter, hrd]
        have hfil3 : (e :: rest).filter (fun x => decide (x.kind = .symlink)) =
            e :: rest.filter (fun x => decide (x.kind = .symlink)) := by
          simp [List.filter, hsym]
        rw [hfil, hfil3]
        simp only [List.map_cons, List.sum_cons]
        ring
      · rw [getUsedSizeLoop]
        simp only [hrd, if_neg, not_false_eq_true, hsym]
        rw [ih total inodes]
        have hfil : (e :: rest).filter
            (fun x => decide (x.kind = .regular ∨ x.kind = .directory)) =
            rest.filter (fun x => decide (x.kind = .regular ∨ x.kind = .directory)) := by
          simp [List.filter, hrd]
        have hfil3 : (e :: rest).filter (fun x => decide (x.kind = .symlink)) =
            rest.filter (fun x => decide (x.kind = .symlink)) := by
          simp [List.filter, hsym]
        rw [hfil, hfil3]

theorem getUsedSize_eq_usedSpec (entries : List FsEntry) :
    getUsedSize entries = usedSpec entries := by
  rw [getUsedSize, getUsedSizeLoop_spec entries 0 []]
  simp only [usedSpec]
  have : ∀ ls : List FsEntry, ls.filter (fun e => decide (e.ino ∉ ([] : List Nat))) = ls := by
    intro ls
    apply List.filter_eq_self.mpr
    intro a _
    simp
  rw [this]
  ring

/-- The insufficient-quota error kind (`syscall.ENOSPC` wrapped at
src/pkg/service/quota.go:96-100). -/
inductive QuotaErr where
  | enospc
deriving DecidableEq

/-- Method `(*DiskQuotaChecker).Check` from src/pkg/service/quota.go:67-104
(error-free environment: the walk, `statfs` and the artifact inspect are the
oracle inputs `entries`, `bavail`/`bsize` and `artifactLayers`).  `limit` is
`cfg.Features.DiskUsageLimit` (an unsigned size).  Returns the error, `none`
meaning admission succeeded. -/
def Check (limit : Nat) (entries : List FsEntry) (bavail bsize : Nat)
    (artifactLayers : List Layer) (excludeModelWeights : Bool) : Option QuotaErr :=
  let availSize : Int :=
    if (limit : Int) > 0 then (limit : Int) - getUsedSize entries
    else (bavail : Int) * (bsize : Int)
  let modelSize := GetSize artifactLayers excludeModelWeights
  if modelSize > availSize then some .enospc else none

/-- C3: disk-quota admission succeeds iff `model_size ≤ avail`, where
`avail = limit − used(root_dir)` when the configured limit is positive —
`used` being the 512-byte-block sum deduplicating hard links by inode over
regular files and directories plus symlink block counts, other kinds ignored
— and `avail = f_bavail * f_bsize` otherwise; when `model_size > avail` it
fails with the insufficient-quota error kind. -/
theorem Check_spec (limit : Nat) (entries : List FsEntry) (bavail bsize : Nat)
    (artifactLayers : List Layer) (ew : Bool) :
    (Check limit entries bavail bsize artifactLayers ew = none ↔
      GetSize artifactLayers ew ≤
        (if 0 < limit then (limit : Int) - usedSpec entries
         else (bavail : Int) * (bsize : Int))) ∧
    (GetSize artifactLayers ew >
        (if 0 < limit then (limit : Int) - usedSpec entries
         else (bavail : Int) * (bsize : Int)) →
      Check limit entries bavail bsize artifactLayers ew = some .enospc) := by
  have hused : getUsedSize entries = usedSpec entries := getUsedSize_eq_usedSpec entries
  have havail : (if (limit : Int) > 0 then (limit : Int) - getUsedSize entries
        else (bavail : Int) * (bsize : Int)) =
      (if 0 < limit then (limit : Int) - usedSpec entries
        else (bavail : Int) * (bsize : Int)) := by
    rw [hused]
    by_cases h : 0 < limit
    · rw [if_pos (Int.natCast_pos.mpr h), if_pos h]
    · rw [if_neg (fun hh => h (Int.natCast_pos.mp hh)), if_neg h]
  have hC : Check limit entries bavail bsize artifactLayers ew =
      (if GetSize artifactLayers ew >
          (if 0 < limit then (limit : Int) - usedSpec entries
           else (bavail : Int) * (bsize : Int)) then some .enospc else none) := by
    simp only [Check]
    rw [havail]
  refine ⟨?_, ?_⟩
  · rw [hC]
    by_cases hgt : GetSize artifactLayers ew >
        (if 0 < limit then (limit : Int) - usedSpec entries
         else (bavail : Int) * (bsize : Int))
    · rw [if_pos hgt]
      constructor
      · intro h
        exact absurd h (by simp)
      · intro h
        exact absurd h (not_le.mpr hgt)
    · rw [if_neg hgt]
      simpa using not_lt.mp hgt
  · intro h
    rw [hC, if_pos h]

/-- Witness for `Check_spec`: with no configured limit, 5 free blocks of
size 100 admit an empty artifact. -/
theorem Check_spec_witness :
    Check 0 [] 5 100 [] false = none :=
  ((Check_spec 0 [] 5 100 [] false).1).mpr (by norm_num [GetSize, getLayers])

/-- Witness for `GetSize_spec`: a layer with the raw weight media type is a
weight layer. -/
theorem GetSize_spec_witness :
    isWeightLayer ⟨.modelWeightRaw, "sha256:aaa", 7, "model-1.safetensor"⟩ = true :=
  ((GetSize_spec []).2.2 ⟨.modelWeightRaw, "sha256:aaa", 7, "model-1.safetensor"⟩).mpr
    (Or.inl rfl)

end Service

namespace Status

/-- JSON document values, as produced by `json.MarshalIndent` and consumed by
`json.Unmarshal` (indentation whitespace carries no information and is not
modelled; object field order is). -/
inductive Json where
  | null
  | bool (b : Bool)
  | num (n : Int)
  | str (s : String)
  | arr (xs : List Json)
  | obj (fields : List (String × Json))

/-- State constants from src/pkg/status/status.go:18-26. -/
def StatePullRunning : String := "PULLING"

def StatePullSucceeded : String := "PULL_SUCCEEDED"

def StatePullFailed : String := "PULL_FAILED"

def StatePullTimeout : String := "PULL_TIMEOUT"

def StatePullCanceled : String := "PULL_CANCELED"

def StateMounted : String := "MOUNTED"

def StateUmounted : String := "UMOUNTED"

/-- Structure `ProgressItem` from src/pkg/status/status.go:32-42.  `time.Time` values
are carried as their RFC 3339 serialization text (their JSON wire form, via
which they round-trip); a non-nil `error` value is carried as its message —
the message has no exported field and is lost by marshaling.  The
`Span trace.Span` field is tagged `json:"-"`, never serialized, and omitted
here. -/
structure ProgressItem where
  digest : String
  path : String
  size : Int
  startedAt : String
  finishedAt : Option String := none
  error : Option String := none
deriving DecidableEq

/-- Structure `Progress` from src/pkg/status/status.go:44-47.  An empty `items` list
stands for the nil slice (the only empty slice the driver produces), which
marshals as JSON `null`. -/
structure Progress where
  total : Int := 0
  items : List ProgressItem := []
deriving DecidableEq

/-- Structure `Status` from src/pkg/status/status.go:57-64. -/
structure Status where
  volumeName : String := ""
  mountID : String := ""
  reference : String := ""
  state : String := ""
  inline : Bool := false
  progress : Progress := {}
deriving DecidableEq

/-- Marshaling of one `ProgressItem` per its struct tags: `digest`, `path`,
`size`, `started_at` always; `finished_at` omitted when nil; `error` omitted
when nil and serialized as the empty JSON object otherwise (the dynamic error
value — `errors.New` / `pkg/errors` values — has no exported fields and no
`MarshalJSON`, so `encoding/json` emits `{}`). -/
def marshalProgressItem (it : ProgressItem) : Json :=
  .obj ([("digest", .str it.digest), ("path", .str it.path), ("size", .num it.size),
         ("started_at", .str it.startedAt)]
    ++ (match it.finishedAt with | none => [] | some t => [("finished_at", .str t)])
    ++ (match it.error with | none => [] | some _ => [("error", .obj [])]))

/-- Marshaling of `Progress`: `total` and `items` have no `omitempty`; a nil
slice marshals as `null`. -/
def marshalProgress (p : Progress) : Json :=
  .obj [("total", .num p.total),
        ("items", if p.items.isEmpty then .null else .arr (p.items.map marshalProgressItem))]

/-- Marshaling of `Status` per its struct tags: every field except `progress`
carries `omitempty`, so empty strings and a false `inline` are omitted;
`progress` is a struct and is always emitted. -/
def marshalStatus (s : Status) : Json :=
  .obj ((if s.volumeName = "" then [] else [("volume_name", .str s.volumeName)])
    ++ (if s.mountID = "" then [] else [("mount_id", .str s.mountID)])
    ++ (if s.reference = "" then [] else [("reference", .str s.reference)])
    ++ (if s.state = "" then [] else [("state", .str s.state)])
    ++ (if s.inline then [("inline", .bool true)] else [])
    ++ [("progress", marshalProgress s.progress)])

/-- First field of a JSON object with the given key (`encoding/json` also
matches keys case-insensitively; only exact keys occur here). -/
def jsonLookup (fields : List (String × Json)) (key : String) : Option Json :=
  (fields.find? (fun kv => kv.1 == key)).map (fun kv => kv.2)

/-- Decoding into a `string` field: absent or `null` leaves the zero value;
a JSON string is taken verbatim; anything else is a type error. -/
def decodeString : Option Json → Except String String
  | none => .ok ""
  | some .null => .ok ""
  | some (.str s) => .ok s
  | some _ => .error "cannot unmarshal into string field"

/-- Decoding into a `*time.Time` field (carried as its RFC 3339 text). -/
def decodeOptString : Option Json → Except String (Option String)
  | none => .ok none
  | some .null => .ok none
  | some (.str s) => .ok (some s)
  | some _ => .error "cannot unmarshal into pointer field"

/-- Decoding into an `int`/`int64` field. -/
def decodeInt : Option Json → Except String Int
  | none => .ok 0
  | some .null => .ok 0
  | some (.num n) => .ok n
  | some _ => .error "cannot unmarshal into integer field"

/-- Decoding into a `bool` field. -/
def decodeBool : Option Json → Except String Bool
  | none => .ok false
  | some .null => .ok false
  | some (.bool b) => .ok b
  | some _ => .error "cannot unmarshal into bool field"

/-- Decoding into the `Error error` field: `error` is a non-empty interface
type, so `encoding/json` can decode nothing into it — `null` (or an absent
key) is a no-op leaving nil, and every other value (in particular the `{}`
that a recorded error was serialized to) is an unmarshal error. -/
def decodeGoError : Option Json → Except String (Option String)
  | none => .ok none
  | some .null => .ok none
  | some _ => .error "cannot unmarshal object into field of interface type error"

/-- Decoding of one `ProgressItem`. -/
def decodeProgressItem : Json → Except String ProgressItem
  | .null => .ok {digest := "", path := "", size := 0, startedAt := ""}
  | .obj fs => do
    let digest ← decodeString (jsonLookup fs "digest")
    let path ← decodeString (jsonLookup fs "path")
    let size ← decodeInt (jsonLookup fs "size")
    let startedAt ← decodeString (jsonLookup fs "started_at")
    let finishedAt ← decodeOptString (jsonLookup fs "finished_at")
    let error ← decodeGoError (jsonLookup fs "error")
    return {digest := digest, path := path, size := size, startedAt := startedAt,
            finishedAt := finishedAt, error := error}
  | _ => .error "cannot unmarshal into ProgressItem"

/-- Element-wise decoding of a JSON array of progress items. -/
def decodeItemList : List Json → Except String (List ProgressItem)
  | [] => .ok []
  | j :: rest => do
    let it ← decodeProgressItem j
    let items ← decodeItemList rest
    return it :: items

/-- Decoding of the `items` slice: `null` or absent leaves nil. -/
def decodeItems : Option Json → Except String (List ProgressItem)
  | none => .ok []
  | some .null => .ok []
  | some (.arr xs) => decodeItemList xs
  | some _ => .error "cannot unmarshal into items field"

/-- Decoding of `Progress`. -/
def decodeProgress : Option Json → Except String Progress
  | none => .ok {}
  | some .null => .ok {}
  | some (.obj fs) => do
    let total ← decodeInt (jsonLookup fs "total")
    let items ← decodeItems (jsonLookup fs "items")
    return {total := total, items := items}
  | some _ => .error "cannot unmarshal into Progress"

/-- Result of `json.Unmarshal` into a fresh `Status` (src/pkg/status/status.go:98-101). -/
def unmarshalStatus : Json → Except String Status
  | .null => .ok {}
  | .obj fs => do
    let volumeName ← decodeString (jsonLookup fs "volume_name")
    let mountID ← decodeString (jsonLookup fs "mount_id")
    let reference ← decodeString (jsonLookup fs "reference")
    let state ← decodeString (jsonLookup fs "state")
    let inline ← decodeBool (jsonLookup fs "inline")
    let progress ← decodeProgress (jsonLookup fs "progress")
    return {volumeName := volumeName, mountID := mountID, reference := reference,
            state := state, inline := inline, progress := progress}
  | _ => .error "cannot unmarshal into Status"

/-- Error kind surfaced by `(*StatusManager).Get`: every failure the claims
touch (missing file, empty file, unparseable file) is wrapped around
`os.ErrNotExist` (src/pkg/status/status.go:88-119). -/
inductive SmErr where
  | notExist
deriving DecidableEq

/-- Method `(*StatusManager).Set` from src/pkg/status/status.go:70-86,121-130 on a
store of status documents keyed by path (`MkdirAll` and the file write are
assumed to succeed; the write replaces the whole document). -/
def smSet {κ : Type} [DecidableEq κ] (files : κ → Option Json) (p : κ) (s : Status) :
    κ → Option Json :=
  fun q => if q = p then some (marshalStatus s) else files q

/-- Method `(*StatusManager).Get` from src/pkg/status/status.go:88-119,132-139: a
missing document or one that fails to unmarshal surfaces the not-exist error
kind. -/
def smGet {κ : Type} [DecidableEq κ] (files : κ → Option Json) (p : κ) :
    Except SmErr Status :=
  match files p with
  | none => .error .notExist
  | some j =>
    match unmarshalStatus j with
    | .error _ => .error .notExist
    | .ok s => .ok s

theorem decodeProgressItem_marshal (it : ProgressItem) (h : it.error = none) :
    decodeProgressItem (marshalProgressItem it) = .ok it := by
  cases it with
  | mk digest path size startedAt finishedAt error =>
    simp only at h
    subst h
    cases finishedAt <;>
      simp [marshalProgressItem, decodeProgressItem, jsonLookup, List.find?,
        decodeString, decodeInt, decodeOptString, decodeGoError, bind, Except.bind,
        pure, Except.pure]

theorem decodeItemList_marshal (items : List ProgressItem)
    (h : ∀ it ∈ items, it.error = none) :
    decodeItemList (items.map marshalProgressItem) = .ok items := by
  induction items with
  | nil => rfl
  | cons a rest ih =>
    have ha := decodeProgressItem_marshal a (h a (by simp))
    have hrest := ih (fun it hit => h it (by simp [hit]))
    simp [decodeItemList, ha, hrest, bind, Except.bind, pure, Except.pure]

theorem decodeProgress_marshal (p : Progress) (h : ∀ it ∈ p.items, it.error = none) :
    decodeProgress (some (marshalProgress p)) = .ok p := by
  cases p with
  | mk total items =>
    simp only at h
    cases items with
    | nil =>
      simp [marshalProgress, decodeProgress, jsonLookup, List.find?, decodeInt,
        decodeItems, bind, Except.bind, pure, Except.pure, List.isEmpty]
    | cons a rest =>
      have hdec := decodeItemList_marshal (a :: rest) h
      simp only [List.map_cons] at hdec
      simp [marshalProgress, decodeProgress, jsonLookup, List.find?, decodeInt,
        decodeItems, hdec, bind, Except.bind, pure, Except.pure, List.isEmpty]

theorem unmarshal_marshal (s : Status) (h : ∀ it ∈ s.progress.items, it.error = none) :
    unmarshalStatus (marshalStatus s) = .ok s := by
  have hprog := decodeProgress_marshal s.progress h
  cases s with
  | mk volumeName mountID reference state inline progress =>
    simp only at hprog
    by_cases h1 : volumeName = "" <;> by_cases h2 : mountID = "" <;>
      by_cases h3 : reference = "" <;> by_cases h4 : state = "" <;> cases inline <;>
        simp [marshalStatus, unmarshalStatus, jsonLookup, List.find?, decodeString,
          decodeBool, hprog, h1, h2, h3, h4, bind, Except.bind, pure, Except.pure]

/-- C6 (amended): for every status `s` none of whose progress items records
an error, `Set(p, s)` followed by `Get(p)` returns exactly `s` — every
JSON-serialized field round-trips.  (A status with a recorded item error
does not round-trip: see the counterexample theorem.) -/
theorem SetGet_roundtrip (files : String → Option Json) (p : String) (s : Status)
    (h : ∀ it ∈ s.progress.items, it.error = none) :
    smGet (smSet files p s) p = .ok s := by
  have h2 := unmarshal_marshal s h
  simp [smGet, smSet, h2]

/-- A status whose single progress item records an error, as the hook writes
after a failed layer pull. -/
def statusWithItemError : Status :=
  { volumeName := "pvc-volume-1"
    reference := "registry.example.com/model:v1"
    state := StatePullFailed
    progress :=
      { total := 1
        items := [
          { digest := "sha256:aaa"
            path := "model-1.safetensor"
            size := 7
            startedAt := "2026-01-02T15:04:05Z"
            error := some "pull failed" }] } }

/-- C6 counterexample: `Set` serializes a recorded progress-item error as the
empty JSON object, and `Get` then fails to unmarshal the document (surfacing
the not-exist kind) instead of returning the status — so `Set(p, s); Get(p)`
does not return `s` when an item carries an error. -/
theorem SetGet_roundtrip_counterexample :
    smGet (smSet (fun _ => none) "/root/volumes/pvc-volume-1/status.json" statusWithItemError)
        "/root/volumes/pvc-volume-1/status.json" = .error .notExist ∧
    statusWithItemError.progress.items.any (fun it => it.error.isSome) = true := by
  constructor <;> rfl

/-- An error-free status exercising every serialized field. -/
def statusAllOk : Status :=
  { volumeName := "csi-dynamic-volume-0"
    mountID := "csi-dynamic-volume-0-mount-1"
    reference := "registry.example.com/model:v1"
    state := StatePullSucceeded
    inline := true
    progress :=
      { total := 2
        items := [
          { digest := "sha256:aaa"
            path := "model-1.safetensor"
            size := 7
            startedAt := "2026-01-02T15:04:05Z"
            finishedAt := some "2026-01-02T15:04:09Z" },
          { digest := "sha256:bbb"
            path := "config.json"
            size := 3
            startedAt := "2026-01-02T15:04:06Z" }] } }

/-- Witness for `SetGet_roundtrip` at a concrete error-free status. -/
theorem SetGet_roundtrip_witness :
    smGet (smSet (fun _ => none) "/root/volumes/csi-dynamic-volume-0/status.json" statusAllOk)
        "/root/volumes/csi-dynamic-volume-0/status.json" = .ok statusAllOk :=
  SetGet_roundtrip (fun _ => none) "/root/volumes/csi-dynamic-volume-0/status.json"
    statusAllOk (by decide)

end Status

namespace Worker

open Status (Json smGet smSet marshalStatus StatePullRunning StatePullSucceeded
  StatePullFailed StatePullTimeout StatePullCanceled)

/-- A filesystem path, as its list of components. -/
abbrev Path := List String

/-- Terminal outcome of the puller invocation (`puller.Pull` at
src/pkg/service/kube.go:253), the oracle input of the model: success, or an
error classified by `errors.Is` as cancellation, deadline exceeded, or
anything else. -/
inductive PullOutcome where
  | success
  | canceled
  | deadlineExceeded
  | failed (msg : String)
deriving DecidableEq

/-- Error kinds surfaced by the worker pull path (`ErrConflict` from
src/pkg/service/kube.go:83 and the three wrapped pull failures from
src/pkg/service/kube.go:253-271). -/
inductive PullErr where
  | conflict
  | canceled
  | deadlineExceeded
  | failed (msg : String)
deriving DecidableEq

/-- Worker-visible node state: the status documents by path and the existing
directories. -/
structure WorkerState where
  files : Path → Option Json
  dirs : Path → Bool

/-- Effect of `os.RemoveAll(d)` on the directory set: drops `d` and everything under
it. -/
def removeDirTree (dirs : Path → Bool) (d : Path) : Path → Bool :=
  fun q => if d.isPrefixOf q then false else dirs q

/-- Effect of `os.RemoveAll(d)` on the document store: drops every document under
`d`. -/
def removeFilesUnder (files : Path → Option Json) (d : Path) : Path → Option Json :=
  fun q => if d.isPrefixOf q then none else files q

/-- Method `(*Config).GetVolumesDir` from
src/pkg/config/auth/keychain.go:385-387 (the file concatenates the config
package): `filepath.Join(cfg.RootDir, "volumes")`. -/
def GetVolumesDir (rootDir : Path) : Path :=
  rootDir ++ ["volumes"]

/-- Method `(*Config).GetVolumeDir` from
src/pkg/config/auth/keychain.go:390-392:
`filepath.Join(cfg.GetVolumesDir(), volumeName)`. -/
def GetVolumeDir (rootDir : Path) (volumeName : String) : Path :=
  GetVolumesDir rootDir ++ [volumeName]

/-- Method `(*Config).GetVolumeDirForDynamic` from
src/pkg/config/auth/keychain.go:400-402:
`filepath.Join(cfg.GetVolumesDir(), volumeName)`. -/
def GetVolumeDirForDynamic (rootDir : Path) (volumeName : String) : Path :=
  GetVolumesDir rootDir ++ [volumeName]

/-- Method `(*Config).GetMountIDDirForDynamic` from
src/pkg/config/auth/keychain.go:410-412:
`filepath.Join(cfg.GetVolumeDirForDynamic(volumeName), "models", mountID)`. -/
def GetMountIDDirForDynamic (rootDir : Path) (volumeName mountID : String) : Path :=
  GetVolumeDirForDynamic rootDir volumeName ++ ["models", mountID]

/-- Body of `(*Worker).pullModel` from src/pkg/service/kube.go:195-285 under
sequential semantics (the singleflight rendezvous, keyed mutex and
cancel-handle bookkeeping route concurrent callers and carry no sequential
state; the hook's intermediate `PULLING` progress writes each replace the
previous document and are subsumed by the terminal write; status writes and
directory removal are assumed not to fail).  Order of operations as in the
source: the conflict check for a reused mount id (lines 224-230), then the
model-directory cleanup (lines 234-236), the initial `PULLING` status write
(line 249), the pull itself, and the terminal status write classified by the
outcome (lines 253-276). -/
def pullModelFn (st : WorkerState) (statusPath : Path) (volumeName mountID reference : String)
    (modelDir : Path) (outcome : PullOutcome) : WorkerState × Option PullErr :=
  let conflictHit : Bool :=
    (mountID != "") &&
      (match smGet st.files statusPath with
       | .ok prior => (prior.reference != "") && (prior.reference != reference)
       | .error _ => false)
  if conflictHit then (st, some .conflict)
  else
    let st1 : WorkerState :=
      ⟨removeFilesUnder st.files modelDir, removeDirTree st.dirs modelDir⟩
    let write := fun (files : Path → Option Json) (state : String) =>
      smSet files statusPath
        {volumeName := volumeName, mountID := mountID, reference := reference, state := state}
    let files2 := write st1.files StatePullRunning
    match outcome with
    | .success => (⟨write files2 StatePullSucceeded, st1.dirs⟩, none)
    | .canceled => (⟨write files2 StatePullCanceled, st1.dirs⟩, some .canceled)
    | .deadlineExceeded => (⟨write files2 StatePullTimeout, st1.dirs⟩, some .deadlineExceeded)
    | .failed msg => (⟨write files2 StatePullFailed, st1.dirs⟩, some (.failed msg))

/-- Method `(*Worker).deleteModel` from src/pkg/service/kube.go:135-168 under
sequential semantics: cancel any in-flight pull (a no-op here), then remove
the volume directory (static) or the mount-id directory (dynamic) under
retry; the removal is assumed to succeed. -/
def deleteModel (st : WorkerState) (rootDir : Path) (isStaticVolume : Bool)
    (volumeName mountID : String) : WorkerState :=
  let volumeDir :=
    if isStaticVolume then GetVolumeDir rootDir volumeName
    else GetMountIDDirForDynamic rootDir volumeName mountID
  ⟨removeFilesUnder st.files volumeDir, removeDirTree st.dirs volumeDir⟩

/-- Method `(*Worker).PullModel` from src/pkg/service/kube.go:179-193: derive the
status path next to the model directory, run the pull, and on any failure
other than `ErrConflict` invoke `DeleteModel` to tear the materialization
down.  Returns the final state, the surfaced error, and whether the cleanup
delete ran. -/
def PullModel (st : WorkerState) (rootDir : Path) (isStaticVolume : Bool)
    (volumeName mountID reference : String) (modelDir : Path) (outcome : PullOutcome) :
    WorkerState × Option PullErr × Bool :=
  let statusPath := modelDir.dropLast ++ ["status.json"]
  let res := pullModelFn st statusPath volumeName mountID reference modelDir outcome
  match res.2 with
  | none => (res.1, none, false)
  | some e =>
    if e = .conflict then (res.1, some e, false)
    else (deleteModel res.1 rootDir isStaticVolume volumeName mountID, some e, true)

/-- C2: for a dynamic mount (nonempty `mount_id`), if the recorded status at
the mount's status path carries a different nonempty reference, `PullModel`
fails with the conflict error kind and mutates nothing: the recorded status
still shows the original reference, and no cleanup delete of the mount
directory is triggered. -/
theorem PullModel_conflict (st : WorkerState) (rootDir : Path) (isStaticVolume : Bool)
    (volumeName mountID reference : String) (modelDir : Path) (outcome : PullOutcome)
    (prior : Status.Status)
    (hm : mountID ≠ "")
    (hget : smGet st.files (modelDir.dropLast ++ ["status.json"]) = .ok prior)
    (hr1 : prior.reference ≠ "")
    (hne : prior.reference ≠ reference) :
    PullModel st rootDir isStaticVolume volumeName mountID reference modelDir outcome =
      (st, some .conflict, false) ∧
    smGet (PullModel st rootDir isStaticVolume volumeName mountID reference modelDir
        outcome).1.files (modelDir.dropLast ++ ["status.json"]) = .ok prior := by
  have hmain : PullModel st rootDir isStaticVolume volumeName mountID reference modelDir
      outcome = (st, some .conflict, false) := by
    simp [PullModel, pullModelFn, hget, hm, hr1, hne]
  refine ⟨hmain, ?_⟩
  rw [hmain]
  simpa using hget

/-- The status a first successful dynamic-mount pull recorded. -/
def c2Prior : Status.Status :=
  {volumeName := "csi-dynamic-volume-0", mountID := "m1",
   reference := "registry.example.com/model:v1", state := StatePullSucceeded}

/-- A store holding `c2Prior` at the mount's status path. -/
def c2Files : Path → Option Json :=
  fun p =>
    if p = ["root", "volumes", "csi-dynamic-volume-0", "models", "m1", "status.json"] then
      some (marshalStatus c2Prior)
    else none

def c2State : WorkerState := ⟨c2Files, fun _ => false⟩

/-- Witness for `PullModel_conflict`: re-creating mount `m1` with a second
reference is rejected with conflict and the state is untouched. -/
theorem PullModel_conflict_witness :
    PullModel c2State ["root"] false "csi-dynamic-volume-0" "m1"
        "registry.example.com/model:v2"
        ["root", "volumes", "csi-dynamic-volume-0", "models", "m1", "model"] .success =
      (c2State, some .conflict, false) :=
  (PullModel_conflict c2State ["root"] false "csi-dynamic-volume-0" "m1"
    "registry.example.com/model:v2"
    ["root", "volumes", "csi-dynamic-volume-0", "models", "m1", "model"] .success c2Prior
    (by decide) (by rfl) (by decide) (by decide)).1

end Worker

namespace Node

/-- Function `isStaticVolume` from src/pkg/service/node.go:40-42. -/
def isStaticVolume (volumeID : String) : Bool :=
  volumeID.startsWith "pvc-"

/-- Function `isDynamicVolume` from src/pkg/service/node.go:44-46. -/
def isDynamicVolume (volumeID : String) : Bool :=
  volumeID.startsWith "csi-"

/-- The gRPC error kinds the publish dispatcher returns itself. -/
inductive CsiError where
  | invalidArgument (msg : String)
  | internal (msg : String)
deriving DecidableEq

/-- The externally visible actions the publish dispatcher can take after its
guards: creating the mount point directory and entering one of the three
variant paths (which perform every pull, mount command and status write). -/
inductive NodeEffect where
  | ensureMountPoint (target : String)
  | publishStatic (volume target : String)
  | publishStaticInline (volume target reference : String)
  | publishDynamicRoot (volume target : String)
deriving DecidableEq

/-- The three variant handlers and `mounter.EnsureMountPoint`, abstracted
over the node state `σ` they transform (payload directories, mount table,
status documents); the dispatcher is proved for every behaviour of these. -/
structure NodeSubHandlers (σ : Type) where
  ensureMountPoint : σ → String → σ × Option CsiError
  publishStatic : σ → String → String → σ × Option CsiError
  publishStaticInline : σ → String → String → String → σ × Option CsiError
  publishDynamicRoot : σ → String → String → σ × Option CsiError

/-- Lookup `volumeAttributes[key]` with the map's zero-value default. -/
def lookupDefault (attrs : List (String × String)) (key : String) : String :=
  match attrs.find? (fun kv => kv.1 == key) with
  | some kv => kv.2
  | none => ""

/-- Method `(*Service).nodePublishVolume` from src/pkg/service/node.go:48-103
(`mounter.IsMounted` is the oracle `isMounted`, assumed not to fail; tracing
attributes carry no state).  Guards: missing volume id, then missing target
path, then the already-mounted early return (lines 75-83); afterwards
`EnsureMountPoint` and the variant dispatch: `pvc-` prefix → static, a
nonempty reference in the volume context → static-inline, otherwise dynamic
root.  Returns the final state, the effects taken, and the error (`none` is
success). -/
def nodePublishVolume {σ : Type} (h : NodeSubHandlers σ) (isMounted : String → Bool)
    (st : σ) (volumeID targetPath : String) (volumeAttributes : List (String × String))
    (paramKeyReference : String) : σ × List NodeEffect × Option CsiError :=
  if volumeID = "" then
    (st, [], some (.invalidArgument "missing required parameter: volumeId"))
  else if targetPath = "" then
    (st, [], some (.invalidArgument "missing required parameter: targetPath"))
  else if isMounted targetPath then
    (st, [], none)
  else
    match h.ensureMountPoint st targetPath with
    | (st1, some e) => (st1, [.ensureMountPoint targetPath], some e)
    | (st1, none) =>
      if isStaticVolume volumeID then
        let r := h.publishStatic st1 volumeID targetPath
        (r.1, [.ensureMountPoint targetPath, .publishStatic volumeID targetPath], r.2)
      else
        let ref := lookupDefault volumeAttributes paramKeyReference
        if ref ≠ "" then
          let r := h.publishStaticInline st1 volumeID targetPath ref
          (r.1, [.ensureMountPoint targetPath, .publishStaticInline volumeID targetPath ref],
            r.2)
        else
          let r := h.publishDynamicRoot st1 volumeID targetPath
          (r.1, [.ensureMountPoint targetPath, .publishDynamicRoot volumeID targetPath], r.2)

/-- C7: publishing onto a target path that is already a mount point is a
no-op success, whatever the variant handlers do: no effect is taken — so no
pull, no mount command, no status write and no directory creation — and the
state is returned unchanged. -/
theorem nodePublishVolume_alreadyMounted {σ : Type} (h : NodeSubHandlers σ)
    (isMounted : String → Bool) (st : σ) (volumeID targetPath : String)
    (volumeAttributes : List (String × String)) (paramKeyReference : String)
    (h1 : volumeID ≠ "") (h2 : targetPath ≠ "") (h3 : isMounted targetPath = true) :
    nodePublishVolume h isMounted st volumeID targetPath volumeAttributes paramKeyReference =
      (st, [], none) := by
  rw [nodePublishVolume, if_neg h1, if_neg h2, if_pos h3]

/-- Variant handlers over a counter state that record every entry. -/
def countingHandlers : NodeSubHandlers Nat where
  ensureMountPoint := fun n _ => (n + 1, none)
  publishStatic := fun n _ _ => (n + 1, none)
  publishStaticInline := fun n _ _ _ => (n + 1, none)
  publishDynamicRoot := fun n _ _ => (n + 1, none)

/-- Witness for `nodePublishVolume_alreadyMounted`: republishing the mounted
target `/mnt/target` changes nothing and succeeds. -/
theorem nodePublishVolume_alreadyMounted_witness :
    nodePublishVolume countingHandlers (fun t => t == "/mnt/target") 0 "pvc-volume-1"
      "/mnt/target" [] "model.csi.k8s.io/reference" = (0, [], none) :=
  nodePublishVolume_alreadyMounted countingHandlers (fun t => t == "/mnt/target") 0
    "pvc-volume-1" "/mnt/target" [] "model.csi.k8s.io/reference"
    (by decide) (by decide) (by decide)

end Node

namespace SF

/-- The events of one singleflight key (`golang.org/x/sync/singleflight`,
the `inflight` group of src/pkg/service/kube.go:119,210-212 under the pull
inflight key `"pull-" + volume + "/" + mount` — identical `(volume, mount)`
pairs share the key): a caller entering `Do`, and the running call
completing with a result that is delivered to the leader and every waiter.
A result is the error value of the shared pull (`none` is success). -/
inductive SFEvent where
  | enter (caller : Nat)
  | complete (r : Option String)
deriving DecidableEq

/-- State of the key: `none` when no call is in flight, otherwise the leader
(whose `fn` — the pull task invoking the backend once — is running) and the
waiting duplicate callers. -/
structure SFState where
  inflight : Option (Nat × List Nat)
deriving DecidableEq

/-- One step of the group, per the singleflight contract: `Do` makes the
caller the leader and invokes `fn` when the key is free (the third component
counts these backend invocations), and otherwise joins the in-flight call as
a waiter; a completion hands the same result to the leader and all waiters
and frees the key; a completion with no call in flight cannot occur. -/
def sfStep : SFState → SFEvent → Option (SFState × List (Nat × Option String) × Nat)
  | ⟨none⟩, .enter c => some (⟨some (c, [])⟩, [], 1)
  | ⟨some (l, ws)⟩, .enter c => some (⟨some (l, ws ++ [c])⟩, [], 0)
  | ⟨some (l, ws)⟩, .complete r => some (⟨none⟩, (l :: ws).map (fun c => (c, r)), 0)
  | ⟨none⟩, .complete _ => none

/-- Run of an event trace: accumulated deliveries and backend invocation
count, `none` when the trace is not a possible execution. -/
def sfRun : SFState → List SFEvent → Option (SFState × List (Nat × Option String) × Nat)
  | st, [] => some (st, [], 0)
  | st, e :: es =>
    match sfStep st e with
    | none => none
    | some (st1, out1, n1) =>
      match sfRun st1 es with
      | none => none
      | some (st2, out2, n2) => some (st2, out1 ++ out2, n1 + n2)

/-- Execution of a trace from the idle key. -/
def sfExec (es : List SFEvent) : Option (SFState × List (Nat × Option String) × Nat) :=
  sfRun ⟨none⟩ es

/-- The pull inflight key from src/pkg/service/kube.go:210. -/
def pullInflightKey (volumeName mountID : String) : String :=
  "pull-" ++ volumeName ++ "/" ++ mountID

/-- C1 counterexample: two `PullModel` calls with the identical key that do
not overlap — the second enters after the first completed — are a possible
execution in which the backend is invoked twice, and the two callers can
even receive different outcomes. -/
theorem singleflight_counterexample :
    sfExec [.enter 0, .complete none, .enter 1, .complete (some "pull model failed")] =
      some (⟨none⟩, [(0, none), (1, some "pull model failed")], 2) := by
  rfl

/-- C1 (amended): two `PullModel` calls with the identical `(volume, mount)`
key that overlap — the second enters while the first call is still in flight
(no completion separates the two enters) — share one call: the backend is
invoked exactly once over the whole trace, and any results delivered to the
two callers are equal.  The trace starts at the first of the two calls and
contains no other callers. -/
theorem singleflight_overlap (mid post : List SFEvent) (a b : Nat) (st : SFState)
    (out : List (Nat × Option String)) (n : Nat)
    (hmidEnter : ∀ e ∈ mid, ∀ c, e ≠ .enter c)
    (hmidComplete : ∀ e ∈ mid, ∀ r, e ≠ .complete r)
    (hpost : ∀ e ∈ post, ∀ c, e ≠ .enter c)
    (hrun : sfExec (.enter a :: (mid ++ .enter b :: post)) = some (st, out, n)) :
    n = 1 ∧ ∀ ra rb, (a, ra) ∈ out → (b, rb) ∈ out → ra = rb := by
  have hmid : mid = [] := by
    cases mid with
    | nil => rfl
    | cons e es =>
      cases e with
      | enter c => exact absurd rfl (hmidEnter _ (by simp) c)
      | complete r => exact absurd rfl (hmidComplete _ (by simp) r)
  subst hmid
  simp only [List.nil_append] at hrun
  cases post with
  | nil =>
    have hval : sfExec [SFEvent.enter a, SFEvent.enter b] =
        some (⟨some (a, [b])⟩, [], 1) := rfl
    rw [hval] at hrun
    obtain ⟨hst, hout, hn⟩ : (⟨some (a, [b])⟩ : SFState) = st ∧ [] = out ∧ 1 = n := by
      simpa using hrun
    refine ⟨hn.symm, ?_⟩
    intro ra rb hra _
    rw [← hout] at hra
    simp at hra
  | cons e rest =>
    cases e with
    | enter c => exact absurd rfl (hpost _ (by simp) c)
    | complete r =>
      cases rest with
      | nil =>
        have hval : sfExec [SFEvent.enter a, SFEvent.enter b, SFEvent.complete r] =
            some (⟨none⟩, [(a, r), (b, r)], 1) := rfl
        rw [hval] at hrun
        obtain ⟨hst, hout, hn⟩ : (⟨none⟩ : SFState) = st ∧ [(a, r), (b, r)] = out ∧ 1 = n := by
          simpa using hrun
        refine ⟨hn.symm, ?_⟩
        intro ra rb hra hrb
        rw [← hout] at hra hrb
        simp only [List.mem_cons, List.mem_singleton, Prod.mk.injEq,
          List.not_mem_nil, or_false] at hra hrb
        rcases hra with ⟨_, hra⟩ | ⟨_, hra⟩ <;> rcases hrb with ⟨_, hrb⟩ | ⟨_, hrb⟩ <;>
          rw [hra, hrb]
      | cons e2 rest2 =>
        cases e2 with
        | enter c => exact absurd rfl (hpost _ (by simp) c)
        | complete r2 =>
          have hval : sfExec (SFEvent.enter a :: SFEvent.enter b :: SFEvent.complete r ::
              SFEvent.complete r2 :: rest2) = none := by
            simp [sfExec, sfRun, sfStep]
          rw [hval] at hrun
          exact absurd hrun (by simp)

/-- Witness for `singleflight_overlap`: caller 1 enters while caller 0's
pull is in flight; the single completion delivers the same outcome to both
and the backend ran once. -/
theorem singleflight_overlap_witness :
    sfExec [SFEvent.enter 0, SFEvent.enter 1, SFEvent.complete (some "boom")] =
        some (⟨none⟩, [(0, some "boom"), (1, some "boom")], 1) ∧
    (1 : Nat) = 1 := by
  refine ⟨rfl, ?_⟩
  exact (singleflight_overlap [] [SFEvent.complete (some "boom")] 0 1 ⟨none⟩
    [(0, some "boom"), (1, some "boom")] 1
    (by intro e he c; simp at he) (by intro e he r; simp at he)
    (by intro e he c; simp at he; rw [he]; simp) rfl).1

end SF

end ModelCsi
